import Mathlib

/-!
Verification of the bullet-hell game (TypeScript sources) against its
natural-language specification.

The embedding conventions:
* JS `number` is modelled as `ℝ` for coordinates, velocities and timestamps,
  and as `ℤ` for lives and scores (which the program only ever treats as
  integers).
* JS object references to enemies are modelled as indices (`ℕ`) into a heap
  `ℕ → Enemy` carried in the game state: a reference stays dereferenceable
  after the referent is removed from the `enemies` array, exactly as in JS.
* `localStorage` plus `JSON.parse` are modelled by the abstract `StoredVal`
  type: the stored string is missing, fails to parse, parses to a non-array,
  or parses to an array of numbers.
* `Math.random()` draws and `Date.now()` are inputs to each tick.
* DOM / audio calls are omitted (no observable effect on the simulation);
  calls to `saveHighScore` are recorded as a list of saved scores.
-/

namespace BulletHell

/-- Result of `localStorage.getItem` + `JSON.parse` for the high-score key:
the item is absent, the stored string fails to parse, it parses to a
non-array value, or it parses to an array of numbers. -/
inductive StoredVal where
  | missing
  | malformed
  | nonArray
  | arr (scores : List ℤ)
deriving DecidableEq, Repr

/-- `getHighScores` from `utils.ts`: return `[0,0,0]` when the item is
missing, when parsing throws, or when the parsed value is not an array;
otherwise return the parsed array as is. -/
def getHighScores : StoredVal → List ℤ
  | .missing => [0, 0, 0]
  | .malformed => [0, 0, 0]
  | .nonArray => [0, 0, 0]
  | .arr scores => scores

/-- JS `scores.sort((a, b) => b - a)`: sort numerically in descending
order. -/
def sortDesc (l : List ℤ) : List ℤ := l.insertionSort (· ≥ ·)

/-- `saveHighScore` from `utils.ts`: read the stored scores, push the new
score, sort descending, keep the first three, write them back and return
them.  The second component is the new stored value. -/
def saveHighScore (newScore : ℤ) (v : StoredVal) : List ℤ × StoredVal :=
  let scores := getHighScores v ++ [newScore]
  let topThree := (sortDesc scores).take 3
  (topThree, .arr topThree)

/-- `getMuteState` from `utils.ts`: the stored string compared with
the literal string true. -/
def getMuteState (stored : Option Bool) : Bool := stored = some true

lemma sortDesc_sorted (l : List ℤ) : List.Sorted (· ≥ ·) (sortDesc l) := by
  haveI : IsTotal ℤ (· ≥ ·) := ⟨fun a b => le_total b a⟩
  haveI : IsTrans ℤ (· ≥ ·) := ⟨fun _ _ _ h h2 => le_trans h2 h⟩
  exact List.sorted_insertionSort _ l

lemma sortDesc_perm (l : List ℤ) : List.Perm (sortDesc l) l :=
  List.perm_insertionSort _ l

/-- If fewer than three entries of `l` exceed `v`, then `v` survives into
the first three entries of the descending sort of `l ++ [v]`. -/
lemma mem_take_three_sortDesc (l : List ℤ) (v : ℤ)
    (h : l.countP (fun x => decide (v < x)) < 3) :
    v ∈ (sortDesc (l ++ [v])).take 3 := by
  set sl := sortDesc (l ++ [v]) with hsl
  have hperm : List.Perm sl (l ++ [v]) := sortDesc_perm _
  have hsorted : List.Sorted (· ≥ ·) sl := sortDesc_sorted _
  by_contra hv
  have hvmem : v ∈ sl := hperm.mem_iff.mpr (by simp)
  have hsplit : sl = sl.take 3 ++ sl.drop 3 := (List.take_append_drop 3 sl).symm
  have hvdrop : v ∈ sl.drop 3 := by
    rcases (List.mem_append.mp (hsplit ▸ hvmem)) with h1 | h2
    · exact absurd h1 hv
    · exact h2
  have hlen3 : (sl.take 3).length = 3 := by
    rcases Nat.lt_or_ge sl.length 3 with hlt | hge
    · exfalso
      have : sl.drop 3 = [] := List.drop_eq_nil_of_le (le_of_lt hlt)
      rw [this] at hvdrop
      exact absurd hvdrop (List.not_mem_nil v)
    · simpa [List.length_take] using Nat.min_eq_left hge
  have hpair : ∀ x ∈ sl.take 3, ∀ y ∈ sl.drop 3, x ≥ y := by
    have := hsplit ▸ hsorted
    exact fun x hx y hy => (List.pairwise_append.mp this).2.2 x hx y hy
  have hgt : ∀ x ∈ sl.take 3, v < x := by
    intro x hx
    have hge : x ≥ v := hpair x hx v hvdrop
    rcases lt_or_eq_of_le hge with hlt | heq
    · exact hlt
    · exact absurd (heq ▸ hx) hv
  have hcount_take : (sl.take 3).countP (fun x => decide (v < x)) = 3 := by
    rw [List.countP_eq_length.mpr (fun x hx => by simpa using hgt x hx)]
    exact hlen3
  have hcount_sl : 3 ≤ sl.countP (fun x => decide (v < x)) := by
    conv_rhs => rw [hsplit]
    rw [List.countP_append, hcount_take]
    exact Nat.le_add_right 3 _
  have hcount_eq : sl.countP (fun x => decide (v < x)) =
      l.countP (fun x => decide (v < x)) := by
    rw [hperm.countP_eq, List.countP_append]
    simp
  omega

/-! Geometry utilities (`utils.ts`).  Coordinates are real numbers; the
square root is `Real.sqrt`, so these definitions are noncomputable and the
collision test is a proposition decided classically, as in every claim
below. -/

/-- A two-dimensional vector (`types.ts`). -/
structure Vector2D where
  x : ℝ
  y : ℝ

/-- Base data shared by all game objects (`types.ts`). -/
structure GameObject where
  position : Vector2D
  velocity : Vector2D
  radius : ℝ

/-- `distance` from `utils.ts`: Euclidean distance between two points. -/
noncomputable def distance (a b : Vector2D) : ℝ :=
  Real.sqrt ((a.x - b.x) * (a.x - b.x) + (a.y - b.y) * (a.y - b.y))

open Classical in
/-- `normalize` from `utils.ts`: scale to unit length, with an explicit
zero-vector guard. -/
noncomputable def normalize (v : Vector2D) : Vector2D :=
  let len := Real.sqrt (v.x * v.x + v.y * v.y)
  if len = 0 then ⟨0, 0⟩ else ⟨v.x / len, v.y / len⟩

/-- `checkCollision` from `utils.ts`: the circles overlap strictly. -/
def checkCollision (a b : GameObject) : Prop :=
  distance a.position b.position < a.radius + b.radius

/-- `clamp` from `utils.ts`: `Math.max(min, Math.min(max, value))`. -/
noncomputable def clamp (value lo hi : ℝ) : ℝ := max lo (min hi value)

/-- `getDirectionVector` from `utils.ts`: normalized difference. -/
noncomputable def getDirectionVector (src dst : Vector2D) : Vector2D :=
  normalize ⟨dst.x - src.x, dst.y - src.y⟩

/-- C9: `collides(a, b)` holds exactly when the center distance is strictly
below the sum of the radii; two circles at distance exactly equal to the sum
of their radii (tangency) do not collide. -/
theorem c9_collision_strict (a b : GameObject) :
    (checkCollision a b ↔ distance a.position b.position < a.radius + b.radius) ∧
    (distance a.position b.position = a.radius + b.radius → ¬ checkCollision a b) := by
  refine ⟨Iff.rfl, fun h hc => ?_⟩
  rw [checkCollision, h] at hc
  exact lt_irrefl _ hc

/-- Concrete tangency witness for C9: circles of radii 1 and 2 whose centers
are 3 apart do not collide. -/
theorem c9_witness :
    distance ⟨0, 0⟩ ⟨3, 0⟩ = (1 : ℝ) + 2 ∧
    ¬ checkCollision ⟨⟨0, 0⟩, ⟨0, 0⟩, 1⟩ ⟨⟨3, 0⟩, ⟨0, 0⟩, 2⟩ := by
  have hd : distance ⟨0, 0⟩ ⟨3, 0⟩ = (1 : ℝ) + 2 := by
    rw [distance]
    norm_num
    rw [show (9 : ℝ) = 3 ^ 2 by norm_num, Real.sqrt_sq (by norm_num : (0 : ℝ) ≤ 3)]
  exact ⟨hd, (c9_collision_strict ⟨⟨0, 0⟩, ⟨0, 0⟩, 1⟩ ⟨⟨3, 0⟩, ⟨0, 0⟩, 2⟩).2 hd⟩

/-! Entity model (`types.ts`) and the game state (`game.ts`). -/

/-- The player (`types.ts`): a game object with lives and a shot
timestamp. -/
structure Player extends GameObject where
  lives : ℤ
  lastShotTime : ℝ

/-- An enemy (`types.ts`): a game object with shot / retarget timestamps
and a current movement target. -/
structure Enemy extends GameObject where
  lastShotTime : ℝ
  targetChangeTime : ℝ
  targetPosition : Vector2D

/-- A bullet (`types.ts`).  `targetEnemy` is the JS object reference to the
homing target, modelled as an index into the enemy heap: like a JS
reference, it stays dereferenceable even after the enemy leaves the
`enemies` array. -/
structure Bullet extends GameObject where
  isPlayerBullet : Bool
  targetEnemy : Option ℕ := none

/-- The game-state enum (`types.ts`). -/
inductive GameState where
  | playing
  | paused
  | gameOver
  | gameClear
deriving DecidableEq, Repr

/-- Modelled from the spec: the configuration module (`config.ts`) is not
among the provided sources; §6 of the spec lists the constants (all
positive).  Each field mirrors the `GameConfig` interface of `types.ts`. -/
structure GameConfig where
  canvasWidth : ℝ
  canvasHeight : ℝ
  playerSpeed : ℝ
  playerShootCooldown : ℝ
  playerBulletSpeed : ℝ
  playerLives : ℤ
  enemyCount : ℕ
  enemySpeed : ℝ
  enemyShootInterval : ℝ
  enemyBulletSpeed : ℝ
  enemyBulletDirections : ℕ
  scorePerEnemy : ℤ
  soundVolume : ℝ

/-- The mutable fields of the `Game` class (`game.ts`).  `heap` is the JS
object store for enemies; `enemies` holds the references making up the
`this.enemies` array; `nextId` is the next unused heap address. -/
structure GameSt where
  heap : ℕ → Enemy
  nextId : ℕ
  enemies : List ℕ
  playerBullets : List Bullet
  enemyBullets : List Bullet
  player : Player
  state : GameState
  score : ℤ
  gameStartTime : ℝ

/-- The currently held keys relevant to the game (`this.keys`). -/
structure KeyState where
  w : Bool
  a : Bool
  s : Bool
  d : Bool
  m : Bool

/-- The per-tick external inputs: the wall clock (`Date.now()`), the held
keys, and the stream of `Math.random()` draws consumed during the tick. -/
structure TickInput where
  now : ℝ
  keys : KeyState
  rng : ℕ → ℝ

/-- `createPlayer` (`game.ts`): the initial player. -/
noncomputable def createPlayer (cfg : GameConfig) : Player :=
  { position := ⟨cfg.canvasWidth / 2, cfg.canvasHeight - 50⟩
    velocity := ⟨0, 0⟩
    radius := 8
    lives := cfg.playerLives
    lastShotTime := 0 }

/-- `initEnemies` (`game.ts`): place `enemyCount` enemies evenly across the
top of the playfield, with a random vertical offset drawn from `rng`.  New
enemy objects are allocated at fresh heap addresses. -/
noncomputable def initEnemies (cfg : GameConfig) (now : ℝ) (rng : ℕ → ℝ) (s : GameSt) : GameSt :=
  let mk : ℕ → Enemy := fun i =>
    let x := cfg.canvasWidth / (cfg.enemyCount + 1) * (i + 1)
    let y := 100 + rng i * 100
    { position := ⟨x, y⟩
      velocity := ⟨0, 0⟩
      radius := 15
      lastShotTime := 0
      targetChangeTime := now
      targetPosition := ⟨x, y⟩ }
  { s with
    heap := fun n => if s.nextId ≤ n ∧ n < s.nextId + cfg.enemyCount then mk (n - s.nextId) else s.heap n
    enemies := (List.range cfg.enemyCount).map (fun i => s.nextId + i)
    nextId := s.nextId + cfg.enemyCount }

/-- `togglePause` (`game.ts`): pause while playing, resume while paused,
otherwise do nothing.  (Overlay updates and re-entering the loop on resume
are external effects.) -/
def togglePause (s : GameSt) : GameSt :=
  if s.state = GameState.playing then { s with state := GameState.paused }
  else if s.state = GameState.paused then { s with state := GameState.playing }
  else s

/-- `restart` (`game.ts`): fresh player and enemies, empty bullet lists,
zero score, new round-start timestamp, state back to playing. -/
noncomputable def restart (cfg : GameConfig) (now : ℝ) (rng : ℕ → ℝ) (s : GameSt) : GameSt :=
  let s1 := initEnemies cfg now rng { s with player := createPlayer cfg }
  { s1 with
    playerBullets := []
    enemyBullets := []
    score := 0
    gameStartTime := now
    state := GameState.playing }

open Classical in
/-- The reducer of `getClosestEnemy` (`game.ts`): fold the enemies after the
first one, keeping whichever enemy is strictly closer to the player. -/
noncomputable def closestFold (p : Vector2D) (heap : ℕ → Enemy) (init : ℕ) (l : List ℕ) : ℕ :=
  l.foldl (fun closest enemy =>
    if distance p (heap enemy).position < distance p (heap closest).position
    then enemy else closest) init

/-- `getClosestEnemy` (`game.ts`): `reduce` over the enemies array keeping
whichever enemy is strictly closer to the player; `undefined` when there are
no enemies. -/
noncomputable def getClosestEnemy (s : GameSt) : Option ℕ :=
  match s.enemies with
  | [] => none
  | e :: rest => some (closestFold s.player.position s.heap e rest)

/-- `shootPlayerBullet` (`game.ts`): skip while the cooldown is running or
when no enemy exists; otherwise stamp `lastShotTime` and push one homing
bullet at the player's position. -/
noncomputable def shootPlayerBullet (now : ℝ) (cfg : GameConfig) (s : GameSt) : GameSt :=
  if now - s.player.lastShotTime < cfg.playerShootCooldown then s
  else
    match getClosestEnemy s with
    | none => s
    | some closest =>
      { s with
        player := { s.player with lastShotTime := now }
        playerBullets := s.playerBullets ++
          [{ position := ⟨s.player.position.x, s.player.position.y⟩
             velocity := ⟨0, 0⟩
             radius := 4
             isPlayerBullet := true
             targetEnemy := some closest }] }

open Classical in
/-- `updatePlayer` (`game.ts`): WASD movement normalized to the player
speed, position clamped to the playfield, then a shot attempt while the fire
key is held. -/
noncomputable def updatePlayer (inp : TickInput) (cfg : GameConfig) (s : GameSt) : GameSt :=
  let dx0 : ℝ := (if inp.keys.a then -1 else 0) + (if inp.keys.d then 1 else 0)
  let dy0 : ℝ := (if inp.keys.w then -1 else 0) + (if inp.keys.s then 1 else 0)
  let d : ℝ × ℝ :=
    if dx0 ≠ 0 ∨ dy0 ≠ 0 then
      let length := Real.sqrt (dx0 * dx0 + dy0 * dy0)
      (dx0 / length * cfg.playerSpeed, dy0 / length * cfg.playerSpeed)
    else (dx0, dy0)
  let px := clamp (s.player.position.x + d.1) s.player.radius (cfg.canvasWidth - s.player.radius)
  let py := clamp (s.player.position.y + d.2) s.player.radius (cfg.canvasHeight - s.player.radius)
  let s1 := { s with player := { s.player with position := ⟨px, py⟩ } }
  if inp.keys.m then shootPlayerBullet inp.now cfg s1 else s1

/-- `shootEnemyBullets` (`game.ts`): push one radial volley of
`enemyBulletDirections` bullets, the i-th at angle `i · 2π/N`, spawned at
the enemy's position. -/
noncomputable def shootEnemyBullets (cfg : GameConfig) (enemy : Enemy)
    (enemyBullets : List Bullet) : List Bullet :=
  enemyBullets ++ (List.range cfg.enemyBulletDirections).map (fun (i : ℕ) =>
    let angleStep := Real.pi * 2 / cfg.enemyBulletDirections
    let angle := angleStep * i
    { position := ⟨enemy.position.x, enemy.position.y⟩
      velocity := ⟨Real.cos angle * cfg.enemyBulletSpeed, Real.sin angle * cfg.enemyBulletSpeed⟩
      radius := 3
      isPlayerBullet := false })

open Classical in
/-- The loop body of `updateEnemies` (`game.ts`) for one enemy reference:
retarget after 2000 ms (consuming random draws from the stream at the
running index), move toward the target clamped into the upper half, then
fire a volley once the shoot interval has elapsed.  The accumulator threads
the heap, the enemy-bullet array and the random-stream index. -/
noncomputable def updateEnemy (inp : TickInput) (cfg : GameConfig) (playerPos : Vector2D)
    (shootInterval : ℝ) (acc : (ℕ → Enemy) × List Bullet × ℕ) (id : ℕ) :
    (ℕ → Enemy) × List Bullet × ℕ :=
  let heap := acc.1
  let ebs := acc.2.1
  let k := acc.2.2
  let enemy := heap id
  let r1 :=
    if inp.now - enemy.targetChangeTime > 2000 then
      if inp.rng k < 0.5 then
        ({ enemy with
            targetPosition := ⟨inp.rng (k + 1) * cfg.canvasWidth,
                               inp.rng (k + 2) * (cfg.canvasHeight / 2)⟩
            targetChangeTime := inp.now }, k + 3)
      else
        ({ enemy with
            targetPosition := ⟨playerPos.x + (inp.rng (k + 1) - 0.5) * 200,
                               playerPos.y - 200⟩
            targetChangeTime := inp.now }, k + 2)
    else (enemy, k)
  let enemy1 := r1.1
  let dir := getDirectionVector enemy1.position enemy1.targetPosition
  let vel : Vector2D := ⟨dir.x * cfg.enemySpeed, dir.y * cfg.enemySpeed⟩
  let enemy2 := { enemy1 with
    velocity := vel
    position := ⟨clamp (enemy1.position.x + vel.x) enemy1.radius (cfg.canvasWidth - enemy1.radius),
                 clamp (enemy1.position.y + vel.y) enemy1.radius (cfg.canvasHeight / 2)⟩ }
  let r2 :=
    if inp.now - enemy2.lastShotTime > shootInterval then
      ({ enemy2 with lastShotTime := inp.now }, shootEnemyBullets cfg enemy2 ebs)
    else (enemy2, ebs)
  (fun n => if n = id then r2.1 else heap n, r2.2, r1.2)

open Classical in
/-- `updateEnemies` (`game.ts`): halve the shoot interval once 10000 ms have
elapsed since round start, then run the loop body over the enemies array. -/
noncomputable def updateEnemies (inp : TickInput) (cfg : GameConfig) (s : GameSt) : GameSt :=
  let shootInterval :=
    if inp.now - s.gameStartTime ≥ 10000 then cfg.enemyShootInterval / 2
    else cfg.enemyShootInterval
  let r := s.enemies.foldl (updateEnemy inp cfg s.player.position shootInterval)
    (s.heap, s.enemyBullets, 0)
  { s with heap := r.1, enemyBullets := r.2.1 }

/-- The homing step of `updateBullets` (`game.ts`) for one player bullet:
when the bullet holds a target reference, recompute the velocity toward the
referenced enemy object (the enemies array is never consulted), then
integrate the position. -/
noncomputable def updatePlayerBullet (heap : ℕ → Enemy) (cfg : GameConfig) (b : Bullet) : Bullet :=
  let b1 :=
    match b.targetEnemy with
    | some id =>
      let dir := getDirectionVector b.position (heap id).position
      { b with velocity := ⟨dir.x * cfg.playerBulletSpeed, dir.y * cfg.playerBulletSpeed⟩ }
    | none => b
  { b1 with position := ⟨b1.position.x + b1.velocity.x, b1.position.y + b1.velocity.y⟩ }

/-- The straight-flight step of `updateBullets` for one enemy bullet. -/
noncomputable def moveBullet (b : Bullet) : Bullet :=
  { b with position := ⟨b.position.x + b.velocity.x, b.position.y + b.velocity.y⟩ }

/-- A player bullet survives the cull exactly inside the canvas. -/
def playerBulletInBounds (cfg : GameConfig) (b : Bullet) : Prop :=
  0 ≤ b.position.x ∧ b.position.x ≤ cfg.canvasWidth ∧
  0 ≤ b.position.y ∧ b.position.y ≤ cfg.canvasHeight

/-- An enemy bullet survives the cull with a 10 px margin. -/
def enemyBulletInBounds (cfg : GameConfig) (b : Bullet) : Prop :=
  -10 ≤ b.position.x ∧ b.position.x ≤ cfg.canvasWidth + 10 ∧
  -10 ≤ b.position.y ∧ b.position.y ≤ cfg.canvasHeight + 10

open Classical in
/-- `updateBullets` (`game.ts`): home / integrate the player bullets,
integrate the enemy bullets, then cull both lists against the playfield. -/
noncomputable def updateBullets (cfg : GameConfig) (s : GameSt) : GameSt :=
  { s with
    playerBullets := (s.playerBullets.map (updatePlayerBullet s.heap cfg)).filter
      (fun b => decide (playerBulletInBounds cfg b))
    enemyBullets := (s.enemyBullets.map moveBullet).filter
      (fun b => decide (enemyBulletInBounds cfg b)) }

/-! Collision resolution (`checkCollisions` in `game.ts`).  Each phase
iterates its outer array from the last index down to 0, splicing on a hit,
which the recursions below mirror: the tail (the higher indices) is
processed first, then the head element runs against the updated data. -/

open Classical in
/-- The inner loop of the bullet-versus-enemies phase: scan the enemies
array from its last index down and remove the first hit found (that is, the
hit at the highest index); `none` when the bullet hits no enemy. -/
noncomputable def removeLastHitEnemy (heap : ℕ → Enemy) (b : Bullet) :
    List ℕ → Option (List ℕ)
  | [] => none
  | e :: es =>
    match removeLastHitEnemy heap b es with
    | some es2 => some (e :: es2)
    | none => if checkCollision b.toGameObject (heap e).toGameObject then some es else none

/-- Phase 1 of `checkCollisions`: player bullets versus enemies.  A bullet
that hits loses itself and the hit enemy and adds `scorePerEnemy`; each
bullet kills at most one enemy.  Returns the surviving player bullets, the
surviving enemies and the new score. -/
noncomputable def bulletsVsEnemies (heap : ℕ → Enemy) (cfg : GameConfig) :
    List Bullet → List ℕ → ℤ → List Bullet × List ℕ × ℤ
  | [], es, sc => ([], es, sc)
  | b :: rest, es, sc =>
    let r := bulletsVsEnemies heap cfg rest es sc
    match removeLastHitEnemy heap b r.2.1 with
    | some es2 => (r.1, es2, r.2.2 + cfg.scorePerEnemy)
    | none => (b :: r.1, r.2.1, r.2.2)

open Classical in
/-- The inner loop of the cancellation phase: scan the enemy bullets from
the last index down and remove the first one hit by the player bullet. -/
noncomputable def removeLastHitBullet (b : Bullet) : List Bullet → Option (List Bullet)
  | [] => none
  | e :: es =>
    match removeLastHitBullet b es with
    | some es2 => some (e :: es2)
    | none => if checkCollision b.toGameObject e.toGameObject then some es else none

/-- Phase 2 of `checkCollisions`: mutual cancellation of player bullets and
enemy bullets. -/
noncomputable def bulletsVsBullets : List Bullet → List Bullet → List Bullet × List Bullet
  | [], ebs => ([], ebs)
  | b :: rest, ebs =>
    let r := bulletsVsBullets rest ebs
    match removeLastHitBullet b r.2 with
    | some ebs2 => (r.1, ebs2)
    | none => (b :: r.1, r.2)

open Classical in
/-- Phase 3 of `checkCollisions`: enemy bullets versus the player.  Every
hit removes the bullet and decrements lives; whenever lives is then ≤ 0,
`gameOver()` runs: the state becomes gameOver and the current score `sc` is
passed to `saveHighScore` (recorded in the last component).  Processing
continues over the remaining bullets regardless. -/
noncomputable def enemyBulletsVsPlayer (p : Player) (sc : ℤ) :
    List Bullet → ℤ → GameState → List Bullet × ℤ × GameState × List ℤ
  | [], lives, st => ([], lives, st, [])
  | b :: rest, lives, st =>
    let r := enemyBulletsVsPlayer p sc rest lives st
    if checkCollision b.toGameObject p.toGameObject then
      let lives2 := r.2.1 - 1
      if lives2 ≤ 0 then (r.1, lives2, GameState.gameOver, r.2.2.2 ++ [sc])
      else (r.1, lives2, r.2.2.1, r.2.2.2)
    else (b :: r.1, r.2.1, r.2.2.1, r.2.2.2)

/-- `checkCollisions` (`game.ts`): the three phases in order, then the
round-clear check: when no enemy is left and the state is still playing,
`gameClear()` runs — state gameClear and `score + lives × 100` passed to
`saveHighScore` once.  The second component lists the scores saved during
the call, in order. -/
noncomputable def checkCollisions (cfg : GameConfig) (s : GameSt) : GameSt × List ℤ :=
  let r1 := bulletsVsEnemies s.heap cfg s.playerBullets s.enemies s.score
  let r2 := bulletsVsBullets r1.1 s.enemyBullets
  let r3 := enemyBulletsVsPlayer s.player r1.2.2 r2.2 s.player.lives s.state
  let s1 : GameSt :=
    { s with
      playerBullets := r2.1
      enemies := r1.2.1
      enemyBullets := r3.1
      score := r1.2.2
      player := { s.player with lives := r3.2.1 }
      state := r3.2.2.1 }
  if s1.enemies = [] ∧ s1.state = GameState.playing then
    ({ s1 with state := GameState.gameClear },
     r3.2.2.2 ++ [s1.score + s1.player.lives * 100])
  else (s1, r3.2.2.2)

/-- `gameLoop` (`game.ts`): when the state is not playing, return without
touching anything (and without scheduling another frame); otherwise run the
four update steps.  The second component lists the scores saved during the
tick. -/
noncomputable def gameLoop (inp : TickInput) (cfg : GameConfig) (s : GameSt) : GameSt × List ℤ :=
  if s.state ≠ GameState.playing then (s, [])
  else checkCollisions cfg (updateBullets cfg (updateEnemies inp cfg (updatePlayer inp cfg s)))

/-- `start` (`game.ts`): before the first tick, call `saveHighScore(0)` on
the persisted scores and stamp the round-start time.  Returns the state with
the new timestamp together with the result and the new stored value of the
`saveHighScore(0)` call. -/
noncomputable def start (now : ℝ) (v : StoredVal) (s : GameSt) : GameSt × List ℤ × StoredVal :=
  ({ s with gameStartTime := now }, saveHighScore 0 v)

/-! Concrete fixtures used by witnesses and counterexamples.  The numeric
values of `cfg0` stand in for the absent `config.ts`; no claim below depends
on the real configuration values. -/

/-- A sample configuration with positive constants, per §6 of the spec. -/
noncomputable def cfg0 : GameConfig :=
  { canvasWidth := 800
    canvasHeight := 600
    playerSpeed := 5
    playerShootCooldown := 200
    playerBulletSpeed := 7
    playerLives := 3
    enemyCount := 5
    enemySpeed := 2
    enemyShootInterval := 1000
    enemyBulletSpeed := 3
    enemyBulletDirections := 8
    scorePerEnemy := 100
    soundVolume := 0.5 }

/-- A default enemy used to fill heaps in fixtures. -/
noncomputable def defaultEnemy : Enemy :=
  { position := ⟨100, 100⟩
    velocity := ⟨0, 0⟩
    radius := 15
    lastShotTime := 0
    targetChangeTime := 0
    targetPosition := ⟨100, 100⟩ }

/-- A sample game state: playing, player at the origin with 3 lives, no
entities. -/
noncomputable def sampleState : GameSt :=
  { heap := fun _ => defaultEnemy
    nextId := 1
    enemies := []
    playerBullets := []
    enemyBullets := []
    player :=
      { position := ⟨0, 0⟩
        velocity := ⟨0, 0⟩
        radius := 8
        lives := 3
        lastShotTime := 0 }
    state := GameState.playing
    score := 0
    gameStartTime := 0 }

/-- No key held. -/
def keys0 : KeyState := ⟨false, false, false, false, false⟩

/-- A trivial tick input. -/
noncomputable def inp0 : TickInput := { now := 0, keys := keys0, rng := fun _ => 0 }

/-- The sample state, paused. -/
noncomputable def pausedState : GameSt := { sampleState with state := GameState.paused }

/-! Claim C3 — the pause action. -/

/-- C3 counterexample: from Playing, the second pause call toggles back to
Playing instead of leaving the state Paused. -/
theorem c3_counterexample :
    (togglePause (togglePause sampleState)).state = GameState.playing ∧
    GameState.playing ≠ GameState.paused := by
  refine ⟨?_, by decide⟩
  simp [togglePause, sampleState]

/-- C3 (amended): the pause action is a toggle, not idempotent — from
Playing one call pauses and a second call returns the state to exactly where
it started. -/
theorem c3_pause_toggle (s : GameSt) (h : s.state = GameState.playing) :
    (togglePause s).state = GameState.paused ∧ togglePause (togglePause s) = s := by
  constructor
  · simp [togglePause, h]
  · cases s with
    | mk heap nextId enemies pb eb player st sc gst =>
      simp only at h
      subst h
      simp [togglePause]

/-- Witness for C3 (amended) at the sample state. -/
theorem c3_witness :
    sampleState.state = GameState.playing ∧
    (togglePause sampleState).state = GameState.paused ∧
    togglePause (togglePause sampleState) = sampleState :=
  ⟨rfl, (c3_pause_toggle sampleState rfl).1, (c3_pause_toggle sampleState rfl).2⟩

/-! Claim C4 — frozen states. -/

/-- C4: in Paused, GameOver or GameClear, a tick changes nothing and saves
nothing; the pause action never leaves a terminal state; only restart
returns the state to Playing. -/
theorem c4_frozen_states (inp : TickInput) (cfg : GameConfig) (s : GameSt)
    (h : s.state = GameState.paused ∨ s.state = GameState.gameOver ∨
         s.state = GameState.gameClear) :
    gameLoop inp cfg s = (s, []) ∧
    ((s.state = GameState.gameOver ∨ s.state = GameState.gameClear) →
      (togglePause s).state = s.state) ∧
    (∀ now rng, (restart cfg now rng s).state = GameState.playing) := by
  refine ⟨?_, ?_, fun now rng => rfl⟩
  · have hne : ¬ s.state = GameState.playing := by
      rcases h with h | h | h <;> simp [h]
    simp [gameLoop, hne]
  · rintro (h2 | h2) <;> simp [togglePause, h2]

/-- Witness for C4 at the paused sample state. -/
theorem c4_witness :
    (pausedState.state = GameState.paused ∨ pausedState.state = GameState.gameOver ∨
      pausedState.state = GameState.gameClear) ∧
    gameLoop inp0 cfg0 pausedState = (pausedState, []) :=
  ⟨Or.inl rfl, (c4_frozen_states inp0 cfg0 pausedState (Or.inl rfl)).1⟩

/-! Claim C6 — high-score loading and saving. -/

/-- C6 counterexample: a stored array that is longer than three entries and
not descending is returned verbatim by `getHighScores`. -/
theorem c6_counterexample :
    getHighScores (StoredVal.arr [1, 2, 3, 4]) = [1, 2, 3, 4] ∧
    ¬ ((getHighScores (StoredVal.arr [1, 2, 3, 4])).length ≤ 3 ∧
       List.Sorted (· ≥ ·) (getHighScores (StoredVal.arr [1, 2, 3, 4]))) := by
  refine ⟨rfl, fun h => ?_⟩
  simpa [getHighScores] using h.1

/-- C6 (amended): `getHighScores` never throws and falls back to `[0,0,0]`
on missing, unparsable or non-array data, but returns a parsed array
verbatim (possibly unsorted or longer than three); `saveHighScore` returns
the descending top three of the stored scores plus the new score, including
the new score whenever fewer than three stored scores exceed it. -/
theorem c6_high_scores (v : StoredVal) (ns : ℤ) :
    (getHighScores StoredVal.missing = [0, 0, 0] ∧
     getHighScores StoredVal.malformed = [0, 0, 0] ∧
     getHighScores StoredVal.nonArray = [0, 0, 0] ∧
     ∀ l, getHighScores (StoredVal.arr l) = l) ∧
    (List.Sorted (· ≥ ·) (saveHighScore ns v).1 ∧
     (saveHighScore ns v).1.length ≤ 3 ∧
     ((getHighScores v).countP (fun x => decide (ns < x)) < 3 →
       ns ∈ (saveHighScore ns v).1)) := by
  refine ⟨⟨rfl, rfl, rfl, fun l => rfl⟩, ?_, ?_, fun h => ?_⟩
  · exact List.Pairwise.sublist (List.take_sublist 3 _)
      (sortDesc_sorted (getHighScores v ++ [ns]))
  · show ((sortDesc (getHighScores v ++ [ns])).take 3).length ≤ 3
    simp [List.length_take]
  · exact mem_take_three_sortDesc _ ns h

/-- Witness for C6 (amended): saving 2 over stored `[5]` keeps the 2. -/
theorem c6_witness :
    (getHighScores (StoredVal.arr [5])).countP (fun x => decide ((2 : ℤ) < x)) < 3 ∧
    (2 : ℤ) ∈ (saveHighScore 2 (StoredVal.arr [5])).1 :=
  ⟨by decide, (c6_high_scores (StoredVal.arr [5]) 2).2.2.2 (by decide)⟩

/-! Claim C10 — `start` writes the high scores before play. -/

/-- C10: `start` invokes `saveHighScore(0)` — the stored top three is
rewritten to the descending top three of the old scores plus a 0 entry,
without the score changing; whenever fewer than three stored scores exceed
0, the 0 entry lands in the stored top three. -/
theorem c10_start_saves_zero (now : ℝ) (v : StoredVal) (s : GameSt) :
    (start now v s).2 = saveHighScore 0 v ∧
    (start now v s).2.2 = StoredVal.arr ((sortDesc (getHighScores v ++ [0])).take 3) ∧
    (start now v s).1.score = s.score ∧
    ((getHighScores v).countP (fun x => decide (0 < x)) < 3 →
      0 ∈ (start now v s).2.1) := by
  refine ⟨rfl, rfl, rfl, fun h => ?_⟩
  show 0 ∈ (sortDesc (getHighScores v ++ [0])).take 3
  exact mem_take_three_sortDesc _ 0 h

/-- Witness for C10: a store holding a single score 5 gains a 0 entry. -/
theorem c10_witness :
    (getHighScores (StoredVal.arr [5])).countP (fun x => decide (0 < x)) < 3 ∧
    0 ∈ (start 0 (StoredVal.arr [5]) sampleState).2.1 :=
  ⟨by decide, (c10_start_saves_zero 0 (StoredVal.arr [5]) sampleState).2.2.2 (by decide)⟩

/-! Claim C7 — firing guards. -/

lemma closestFold_spec (p : Vector2D) (heap : ℕ → Enemy) :
    ∀ (l : List ℕ) (init : ℕ),
      closestFold p heap init l ∈ init :: l ∧
      distance p (heap (closestFold p heap init l)).position ≤
        distance p (heap init).position ∧
      ∀ y ∈ l, distance p (heap (closestFold p heap init l)).position ≤
        distance p (heap y).position := by
  intro l
  induction l with
  | nil => intro init; simp [closestFold]
  | cons a t ih =>
    intro init
    have hstep : closestFold p heap init (a :: t) =
        closestFold p heap
          (if distance p (heap a).position < distance p (heap init).position
           then a else init) t := rfl
    by_cases hc : distance p (heap a).position < distance p (heap init).position
    · rw [hstep, if_pos hc]
      obtain ⟨hmem, hle, hall⟩ := ih a
      refine ⟨?_, le_trans hle (le_of_lt hc), ?_⟩
      · rcases List.mem_cons.mp hmem with h | h
        · simp [h]
        · simp [List.mem_cons.mpr (Or.inr h)]
      · intro y hy
        rcases List.mem_cons.mp hy with rfl | hy2
        · exact hle
        · exact hall y hy2
    · rw [hstep, if_neg hc]
      obtain ⟨hmem, hle, hall⟩ := ih init
      refine ⟨?_, hle, ?_⟩
      · rcases List.mem_cons.mp hmem with h | h
        · simp [h]
        · simp [List.mem_cons.mpr (Or.inr h)]
      · intro y hy
        rcases List.mem_cons.mp hy with rfl | hy2
        · exact le_trans hle (not_lt.mp hc)
        · exact hall y hy2

/-- C7: with the fire signal present, a running cooldown or an empty enemy
collection yields no bullet and leaves the whole state (in particular
`lastShotTime`) untouched; otherwise exactly one bullet is spawned at the
player's position, targeting a nearest enemy, and `lastShotTime` is set to
the current time. -/
theorem c7_shoot_guards (now : ℝ) (cfg : GameConfig) (s : GameSt) :
    (now - s.player.lastShotTime < cfg.playerShootCooldown →
      shootPlayerBullet now cfg s = s) ∧
    (s.enemies = [] → shootPlayerBullet now cfg s = s) ∧
    (cfg.playerShootCooldown ≤ now - s.player.lastShotTime → s.enemies ≠ [] →
      ∃ t, getClosestEnemy s = some t ∧ t ∈ s.enemies ∧
        (∀ e ∈ s.enemies, distance s.player.position (s.heap t).position ≤
          distance s.player.position (s.heap e).position) ∧
        shootPlayerBullet now cfg s =
          { s with
            player := { s.player with lastShotTime := now }
            playerBullets := s.playerBullets ++
              [{ position := ⟨s.player.position.x, s.player.position.y⟩
                 velocity := ⟨0, 0⟩
                 radius := 4
                 isPlayerBullet := true
                 targetEnemy := some t }] }) := by
  refine ⟨fun h => ?_, fun h => ?_, fun h1 h2 => ?_⟩
  · rw [shootPlayerBullet, if_pos h]
  · have hgce : getClosestEnemy s = none := by
      rw [getClosestEnemy, h]
    rw [shootPlayerBullet]
    by_cases hcd : now - s.player.lastShotTime < cfg.playerShootCooldown
    · rw [if_pos hcd]
    · rw [if_neg hcd, hgce]
  · obtain ⟨e, rest, hcons⟩ := List.exists_cons_of_ne_nil h2
    have hgce : getClosestEnemy s = some (closestFold s.player.position s.heap e rest) := by
      rw [getClosestEnemy, hcons]
    obtain ⟨hmem, hle, hall⟩ := closestFold_spec s.player.position s.heap rest e
    refine ⟨closestFold s.player.position s.heap e rest, hgce, ?_, ?_, ?_⟩
    · rw [hcons]; exact hmem
    · intro y hy
      rw [hcons] at hy
      rcases List.mem_cons.mp hy with rfl | hy2
      · exact hle
      · exact hall y hy2
    · rw [shootPlayerBullet, if_neg (not_lt.mpr h1), hgce]

/-- The sample state with one enemy reference. -/
noncomputable def oneEnemyState : GameSt := { sampleState with enemies := [0] }

/-- Witness for C7: at time 1000 with cooldown 200, a shot from the
one-enemy state succeeds. -/
theorem c7_witness :
    cfg0.playerShootCooldown ≤ 1000 - oneEnemyState.player.lastShotTime ∧
    oneEnemyState.enemies ≠ [] ∧
    ∃ t, getClosestEnemy oneEnemyState = some t ∧ t ∈ oneEnemyState.enemies ∧
      (∀ e ∈ oneEnemyState.enemies,
        distance oneEnemyState.player.position (oneEnemyState.heap t).position ≤
          distance oneEnemyState.player.position (oneEnemyState.heap e).position) ∧
      shootPlayerBullet 1000 cfg0 oneEnemyState =
        { oneEnemyState with
          player := { oneEnemyState.player with lastShotTime := 1000 }
          playerBullets := oneEnemyState.playerBullets ++
            [{ position := ⟨oneEnemyState.player.position.x, oneEnemyState.player.position.y⟩
               velocity := ⟨0, 0⟩
               radius := 4
               isPlayerBullet := true
               targetEnemy := some t }] } := by
  have hcd : cfg0.playerShootCooldown ≤ 1000 - oneEnemyState.player.lastShotTime := by
    show (200 : ℝ) ≤ 1000 - 0
    norm_num
  have hne : oneEnemyState.enemies ≠ [] := by
    show ([0] : List ℕ) ≠ []
    simp
  exact ⟨hcd, hne, (c7_shoot_guards 1000 cfg0 oneEnemyState).2.2 hcd hne⟩

/-! Claim C8 — the radial volley. -/

/-- C8: a volley appends exactly `enemyBulletDirections` bullets; the i-th
appended bullet sits at the firing enemy's position with velocity
`(cos (i·2π/N)·speed, sin (i·2π/N)·speed)`, and every appended bullet's
velocity magnitude equals the configured enemy bullet speed. -/
theorem c8_radial_volley (cfg : GameConfig) (enemy : Enemy) (ebs : List Bullet)
    (_hN : 1 ≤ cfg.enemyBulletDirections) (hs : 0 ≤ cfg.enemyBulletSpeed) :
    (shootEnemyBullets cfg enemy ebs).length = ebs.length + cfg.enemyBulletDirections ∧
    (∀ i : ℕ, i < cfg.enemyBulletDirections →
      (shootEnemyBullets cfg enemy ebs)[ebs.length + i]? =
        some { position := enemy.position
               velocity :=
                 ⟨Real.cos (Real.pi * 2 / cfg.enemyBulletDirections * i) * cfg.enemyBulletSpeed,
                  Real.sin (Real.pi * 2 / cfg.enemyBulletDirections * i) * cfg.enemyBulletSpeed⟩
               radius := 3
               isPlayerBullet := false
               targetEnemy := none }) ∧
    ∀ b ∈ (shootEnemyBullets cfg enemy ebs).drop ebs.length,
      Real.sqrt (b.velocity.x * b.velocity.x + b.velocity.y * b.velocity.y) =
        cfg.enemyBulletSpeed := by
  refine ⟨?_, fun i hi => ?_, fun b hb => ?_⟩
  · simp [shootEnemyBullets]
  · rw [shootEnemyBullets, List.getElem?_append_right (Nat.le_add_right _ _)]
    simp only [Nat.add_sub_cancel_left, List.getElem?_map]
    rw [List.getElem?_range hi]
    rfl
  · rw [shootEnemyBullets, List.drop_left] at hb
    obtain ⟨i, hi, rfl⟩ := List.mem_map.mp hb
    set θ : ℝ := Real.pi * 2 / cfg.enemyBulletDirections * i with hθ
    show Real.sqrt ((Real.cos θ * cfg.enemyBulletSpeed) * (Real.cos θ * cfg.enemyBulletSpeed) +
        (Real.sin θ * cfg.enemyBulletSpeed) * (Real.sin θ * cfg.enemyBulletSpeed)) =
      cfg.enemyBulletSpeed
    have hsum : (Real.cos θ * cfg.enemyBulletSpeed) * (Real.cos θ * cfg.enemyBulletSpeed) +
        (Real.sin θ * cfg.enemyBulletSpeed) * (Real.sin θ * cfg.enemyBulletSpeed) =
        cfg.enemyBulletSpeed ^ 2 * (Real.sin θ ^ 2 + Real.cos θ ^ 2) := by ring
    rw [hsum, Real.sin_sq_add_cos_sq, mul_one, Real.sqrt_sq hs]

/-- The sample configuration with a single bullet direction. -/
noncomputable def cfg1 : GameConfig := { cfg0 with enemyBulletDirections := 1 }

/-- Witness for C8 with one direction: exactly one bullet is appended. -/
theorem c8_witness :
    1 ≤ cfg1.enemyBulletDirections ∧ (0 : ℝ) ≤ cfg1.enemyBulletSpeed ∧
    (shootEnemyBullets cfg1 defaultEnemy []).length =
      ([] : List Bullet).length + cfg1.enemyBulletDirections := by
  have h1 : 1 ≤ cfg1.enemyBulletDirections := Nat.le_refl 1
  have h2 : (0 : ℝ) ≤ cfg1.enemyBulletSpeed := by
    show (0 : ℝ) ≤ 3
    norm_num
  exact ⟨h1, h2, (c8_radial_volley cfg1 defaultEnemy [] h1 h2).1⟩

/-! Claim C1 — homing after the target's removal. -/

/-- An enemy object five pixels above the origin; in the C1 counterexample
no enemy reference is left in the `enemies` array. -/
noncomputable def staleEnemy : Enemy :=
  { position := ⟨0, 5⟩
    velocity := ⟨0, 0⟩
    radius := 15
    lastShotTime := 0
    targetChangeTime := 0
    targetPosition := ⟨0, 5⟩ }

/-- A player bullet at the origin, at rest, still holding the reference to
enemy 7. -/
noncomputable def staleBullet : Bullet :=
  { position := ⟨0, 0⟩
    velocity := ⟨0, 0⟩
    radius := 4
    isPlayerBullet := true
    targetEnemy := some 7 }

/-- A state whose enemy collection is empty while `staleBullet` still
tracks the (removed) enemy 7. -/
noncomputable def staleState : GameSt :=
  { sampleState with
    heap := fun _ => staleEnemy
    enemies := []
    playerBullets := [staleBullet] }

lemma normalize_zero_five : normalize ⟨0, 5⟩ = ⟨0, 1⟩ := by
  have h25 : Real.sqrt ((0 : ℝ) * 0 + 5 * 5) = 5 := by
    rw [show ((0 : ℝ) * 0 + 5 * 5) = 5 ^ 2 by norm_num]
    exact Real.sqrt_sq (by norm_num)
  simp only [normalize, h25]
  norm_num

lemma c1_bullet_step :
    updatePlayerBullet (fun _ => staleEnemy) cfg0 staleBullet =
      { staleBullet with velocity := ⟨0, 7⟩, position := ⟨0, 7⟩ } := by
  have hdir : getDirectionVector ⟨0, 0⟩ ⟨0, 5⟩ = (⟨0, 1⟩ : Vector2D) := by
    rw [getDirectionVector]
    norm_num [normalize_zero_five]
  simp only [updatePlayerBullet, staleBullet, staleEnemy, cfg0, hdir]
  norm_num

open Classical in
/-- C1 counterexample: although enemy 7 is no longer in the enemy
collection, the bullet-update step still recomputes the bullet's velocity
toward the removed enemy object — the velocity does not stay at its last
value `(0, 0)` but becomes `(0, 7)`. -/
theorem c1_counterexample :
    staleBullet.targetEnemy = some 7 ∧ (7 : ℕ) ∉ staleState.enemies ∧
    (updateBullets cfg0 staleState).playerBullets =
      [{ staleBullet with velocity := ⟨0, 7⟩, position := ⟨0, 7⟩ }] ∧
    ¬ (({ staleBullet with velocity := ⟨0, 7⟩, position := ⟨0, 7⟩ } : Bullet).velocity =
        staleBullet.velocity) := by
  refine ⟨rfl, by simp [staleState, sampleState], ?_, ?_⟩
  · have hP : playerBulletInBounds cfg0
        ({ staleBullet with velocity := ⟨0, 7⟩, position := ⟨0, 7⟩ } : Bullet) := by
      show (0 : ℝ) ≤ 0 ∧ (0 : ℝ) ≤ 800 ∧ (0 : ℝ) ≤ 7 ∧ (7 : ℝ) ≤ 600
      norm_num
    simp only [updateBullets]
    rw [show staleState.playerBullets = [staleBullet] from rfl,
        show staleState.heap = (fun _ => staleEnemy) from rfl]
    rw [List.map_cons, List.map_nil, c1_bullet_step, List.filter_cons, List.filter_nil,
        if_pos (decide_eq_true hP)]
  · intro h
    have h7 : (7 : ℝ) = 0 := congrArg Vector2D.y h
    norm_num at h7

/-- C1 (amended): the per-tick bullet update never consults the enemy
collection — replacing the `enemies` array changes nothing in its output;
a bullet's velocity is recomputed toward the referenced enemy object
whenever its `targetEnemy` reference is set (even if that enemy has been
removed from the collection, homing continues toward the removed object's
last position), and only a bullet with no target reference keeps its last
velocity. -/
theorem c1_homing_ignores_removal (cfg : GameConfig) (s : GameSt) (es2 : List ℕ) :
    ((updateBullets cfg { s with enemies := es2 }).playerBullets =
      (updateBullets cfg s).playerBullets ∧
     (updateBullets cfg { s with enemies := es2 }).enemyBullets =
      (updateBullets cfg s).enemyBullets) ∧
    ∀ b : Bullet,
      (b.targetEnemy = none → (updatePlayerBullet s.heap cfg b).velocity = b.velocity) ∧
      (∀ id, b.targetEnemy = some id →
        (updatePlayerBullet s.heap cfg b).velocity =
          ⟨(getDirectionVector b.position (s.heap id).position).x * cfg.playerBulletSpeed,
           (getDirectionVector b.position (s.heap id).position).y * cfg.playerBulletSpeed⟩) := by
  refine ⟨⟨rfl, rfl⟩, fun b => ⟨fun hn => ?_, fun id hid => ?_⟩⟩
  · rw [updatePlayerBullet, hn]
  · rw [updatePlayerBullet, hid]

/-- The stale bullet with its target reference cleared. -/
noncomputable def straightBullet : Bullet := { staleBullet with targetEnemy := none }

/-- Witness for C1 (amended): a bullet without a target reference keeps its
velocity. -/
theorem c1_witness :
    straightBullet.targetEnemy = none ∧
    (updatePlayerBullet staleState.heap cfg0 straightBullet).velocity =
      straightBullet.velocity :=
  ⟨rfl, ((c1_homing_ignores_removal cfg0 staleState []).2 straightBullet).1 rfl⟩

/-! Claim C2 — lives under multiple simultaneous hits. -/

open Classical in
/-- The number of bullets in a list that overlap the player. -/
noncomputable def playerHitCount (p : Player) : List Bullet → ℤ
  | [] => 0
  | b :: rest =>
    (if checkCollision b.toGameObject p.toGameObject then 1 else 0) + playerHitCount p rest

lemma enemyBulletsVsPlayer_lives (p : Player) (sc : ℤ) :
    ∀ (l : List Bullet) (lives : ℤ) (st : GameState),
      (enemyBulletsVsPlayer p sc l lives st).2.1 = lives - playerHitCount p l := by
  intro l
  induction l with
  | nil => intro lives st; simp [enemyBulletsVsPlayer, playerHitCount]
  | cons b rest ih =>
    intro lives st
    simp only [enemyBulletsVsPlayer]
    by_cases hc : checkCollision b.toGameObject p.toGameObject
    · have hcnt : playerHitCount p (b :: rest) = 1 + playerHitCount p rest := by
        simp only [playerHitCount, if_pos hc]
      rw [hcnt, if_pos hc]
      by_cases h0 : (enemyBulletsVsPlayer p sc rest lives st).2.1 - 1 ≤ 0
      · rw [if_pos h0]
        show (enemyBulletsVsPlayer p sc rest lives st).2.1 - 1 =
          lives - (1 + playerHitCount p rest)
        rw [ih]; ring
      · rw [if_neg h0]
        show (enemyBulletsVsPlayer p sc rest lives st).2.1 - 1 =
          lives - (1 + playerHitCount p rest)
        rw [ih]; ring
    · have hcnt : playerHitCount p (b :: rest) = 0 + playerHitCount p rest := by
        simp only [playerHitCount, if_neg hc]
      rw [hcnt, if_neg hc]
      show (enemyBulletsVsPlayer p sc rest lives st).2.1 =
        lives - (0 + playerHitCount p rest)
      rw [ih]; ring

/-- The enemy bullets that reach the player phase: the player bullets that
survived phase 1 cancel against the enemy bullets in phase 2, and the
remainder is tested against the player. -/
noncomputable def survivingEnemyBullets (cfg : GameConfig) (s : GameSt) : List Bullet :=
  (bulletsVsBullets (bulletsVsEnemies s.heap cfg s.playerBullets s.enemies s.score).1
    s.enemyBullets).2

lemma checkCollisions_lives (cfg : GameConfig) (s : GameSt) :
    (checkCollisions cfg s).1.player.lives =
      s.player.lives - playerHitCount s.player (survivingEnemyBullets cfg s) := by
  have hl := enemyBulletsVsPlayer_lives s.player
    (bulletsVsEnemies s.heap cfg s.playerBullets s.enemies s.score).2.2
    (survivingEnemyBullets cfg s) s.player.lives s.state
  rw [checkCollisions]
  split
  · exact hl
  · exact hl

/-- C2 (amended): collision resolution decrements lives once per enemy
bullet overlapping the player — past zero when several bullets hit in the
same tick, so lives can become negative; lives stays non-negative exactly
when the number of overlapping bullets does not exceed the lives on hand. -/
theorem c2_lives_hits (cfg : GameConfig) (s : GameSt) :
    (checkCollisions cfg s).1.player.lives =
      s.player.lives - playerHitCount s.player (survivingEnemyBullets cfg s) ∧
    (playerHitCount s.player (survivingEnemyBullets cfg s) ≤ s.player.lives →
      0 ≤ (checkCollisions cfg s).1.player.lives) := by
  refine ⟨checkCollisions_lives cfg s, fun h => ?_⟩
  rw [checkCollisions_lives cfg s]
  omega

/-- An enemy bullet resting exactly on the player's position. -/
noncomputable def hitBullet : Bullet :=
  { position := ⟨0, 0⟩
    velocity := ⟨0, 0⟩
    radius := 3
    isPlayerBullet := false
    targetEnemy := none }

/-- A playing state with one life, one enemy left, and two enemy bullets
overlapping the player. -/
noncomputable def c2State : GameSt :=
  { sampleState with
    player := { sampleState.player with lives := 1 }
    enemies := [0]
    enemyBullets := [hitBullet, hitBullet] }

lemma hitBullet_hits : checkCollision hitBullet.toGameObject c2State.player.toGameObject := by
  show distance ⟨0, 0⟩ ⟨0, 0⟩ < (3 : ℝ) + 8
  rw [distance]
  norm_num

lemma c2_hitCount_two : playerHitCount c2State.player [hitBullet, hitBullet] = 2 := by
  simp only [playerHitCount, if_pos hitBullet_hits]
  norm_num

/-- C2 counterexample: with one life and two enemy bullets overlapping the
player in the same tick, collision resolution leaves lives at −1. -/
theorem c2_counterexample :
    (checkCollisions cfg0 c2State).1.player.lives = -1 ∧
    ¬ (0 ≤ (checkCollisions cfg0 c2State).1.player.lives) := by
  have h := checkCollisions_lives cfg0 c2State
  rw [show survivingEnemyBullets cfg0 c2State = [hitBullet, hitBullet] from rfl,
      c2_hitCount_two] at h
  rw [show c2State.player.lives = 1 from rfl] at h
  norm_num at h
  exact ⟨h, by rw [h]; norm_num⟩

/-- Witness for C2 (amended): with no enemy bullet overlapping, lives stays
at its non-negative value. -/
theorem c2_witness :
    playerHitCount sampleState.player (survivingEnemyBullets cfg0 sampleState) ≤
      sampleState.player.lives ∧
    0 ≤ (checkCollisions cfg0 sampleState).1.player.lives := by
  have hcnt : playerHitCount sampleState.player (survivingEnemyBullets cfg0 sampleState) =
      0 := rfl
  have hle : playerHitCount sampleState.player (survivingEnemyBullets cfg0 sampleState) ≤
      sampleState.player.lives := by
    rw [hcnt]; show (0 : ℤ) ≤ 3; norm_num
  exact ⟨hle, (c2_lives_hits cfg0 sampleState).2 hle⟩

/-! Claim C5 — the game-clear transition and bonus. -/

lemma enemyBulletsVsPlayer_playing (p : Player) (sc : ℤ) :
    ∀ (l : List Bullet) (lives : ℤ) (st : GameState),
      (enemyBulletsVsPlayer p sc l lives st).2.2.1 = GameState.playing →
      (enemyBulletsVsPlayer p sc l lives st).2.2.2 = [] ∧ st = GameState.playing := by
  intro l
  induction l with
  | nil => intro lives st h; exact ⟨rfl, h⟩
  | cons b rest ih =>
    intro lives st h
    simp only [enemyBulletsVsPlayer] at h ⊢
    by_cases hc : checkCollision b.toGameObject p.toGameObject
    · rw [if_pos hc] at h ⊢
      by_cases h0 : (enemyBulletsVsPlayer p sc rest lives st).2.1 - 1 ≤ 0
      · rw [if_pos h0] at h
        simp at h
      · rw [if_neg h0] at h ⊢
        exact ih lives st h
    · rw [if_neg hc] at h ⊢
      exact ih lives st h

/-- C5: when collision resolution leaves the enemy collection empty and the
state is still Playing after the enemy-bullet phase, the state becomes
GameClear and exactly one score is reported to high-score persistence: the
final score plus final lives × 100. -/
theorem c5_game_clear_bonus (cfg : GameConfig) (s : GameSt)
    (hempty : (bulletsVsEnemies s.heap cfg s.playerBullets s.enemies s.score).2.1 = [])
    (halive : (enemyBulletsVsPlayer s.player
        (bulletsVsEnemies s.heap cfg s.playerBullets s.enemies s.score).2.2
        (survivingEnemyBullets cfg s) s.player.lives s.state).2.2.1 = GameState.playing) :
    (checkCollisions cfg s).1.state = GameState.gameClear ∧
    (checkCollisions cfg s).2 =
      [(checkCollisions cfg s).1.score + (checkCollisions cfg s).1.player.lives * 100] := by
  have hsaves : (enemyBulletsVsPlayer s.player
      (bulletsVsEnemies s.heap cfg s.playerBullets s.enemies s.score).2.2
      (bulletsVsBullets (bulletsVsEnemies s.heap cfg s.playerBullets s.enemies s.score).1
        s.enemyBullets).2
      s.player.lives s.state).2.2.2 = [] :=
    (enemyBulletsVsPlayer_playing s.player
      (bulletsVsEnemies s.heap cfg s.playerBullets s.enemies s.score).2.2
      (survivingEnemyBullets cfg s) s.player.lives s.state halive).1
  rw [checkCollisions]
  rw [if_pos ⟨hempty, halive⟩]
  refine ⟨rfl, ?_⟩
  rw [hsaves]
  rfl

/-- The playing sample state with a score of 10 (no enemies left). -/
noncomputable def clearState : GameSt := { sampleState with score := 10 }

/-- Witness for C5: at the cleared state the tick reports `10 + 3·100`. -/
theorem c5_witness :
    (bulletsVsEnemies clearState.heap cfg0 clearState.playerBullets clearState.enemies
        clearState.score).2.1 = [] ∧
    (enemyBulletsVsPlayer clearState.player
        (bulletsVsEnemies clearState.heap cfg0 clearState.playerBullets clearState.enemies
          clearState.score).2.2
        (survivingEnemyBullets cfg0 clearState) clearState.player.lives
        clearState.state).2.2.1 = GameState.playing ∧
    (checkCollisions cfg0 clearState).1.state = GameState.gameClear ∧
    (checkCollisions cfg0 clearState).2 = [(310 : ℤ)] := by
  have hempty : (bulletsVsEnemies clearState.heap cfg0 clearState.playerBullets
      clearState.enemies clearState.score).2.1 = [] := rfl
  have halive : (enemyBulletsVsPlayer clearState.player
      (bulletsVsEnemies clearState.heap cfg0 clearState.playerBullets clearState.enemies
        clearState.score).2.2
      (survivingEnemyBullets cfg0 clearState) clearState.player.lives
      clearState.state).2.2.1 = GameState.playing := rfl
  have h := c5_game_clear_bonus cfg0 clearState hempty halive
  refine ⟨hempty, halive, h.1, ?_⟩
  rw [h.2]
  rfl

end BulletHell
